import Mathlib

/-!
# The wait loops of GPGME (`src/wait.c`)

A shallow embedding of the functions of `wait.c` and proofs about them.

* C state is passed explicitly: every function takes the state `w : W` of the
  rest of the process (fd table, done list, engines, errno, application data)
  and gives back the new one.
* The functions `wait.c` calls but does not define (`_gpgme_fdtable_*`,
  `_gpgme_io_select`, `_gpgme_get_ctx`, `_gpgme_cancel_with_err`,
  `_gpgme_engine_io_event`, `gpg_error_from_syserror`, the user hooks) are the
  fields of `Env`; the theorems on the wait loops hold for every `Env`.
* Every embedded function also returns the list of the calls it made to them,
  in order, with their arguments and results (`Call`).
* A pointer argument that may be null is an `Option`: `none` is `NULL`,
  `some v` a valid pointer whose cell holds `v`.
* The two `do ... while (hang)` loops take a fuel argument, the largest number
  of passes that are run; `Run.running` is a loop still hanging when the fuel
  is used up.
* `assert (e)` with `e` false aborts the process: the functions that contain an
  assertion return an `Option`, `none` being the abort.
-/

namespace Wait

/-! ## Data -/

/-- The fields of `struct gpgme_context` that `wait.c` reads: the serial
number and the engine handle. -/
structure gpgme_ctx where
  serial : Nat
  engine : Nat
deriving DecidableEq, Repr

/-- The type `gpgme_event_io_t`; `other n` is any value outside the four
enumerators (the `default:` label of the switch). -/
inductive gpgme_event_io_t where
  | GPGME_EVENT_START
  | GPGME_EVENT_DONE
  | GPGME_EVENT_NEXT_KEY
  | GPGME_EVENT_NEXT_TRUSTITEM
  | other (n : Nat)
deriving DecidableEq, Repr

/-- The type `struct gpgme_io_event_done_data`. -/
structure gpgme_io_event_done_data where
  err : Nat
  op_err : Nat
deriving DecidableEq, Repr

/-- The type `struct io_cb_tag_s`, as far as `wait.c` uses it. -/
structure io_cb_tag_s where
  serial : Nat
  fd : Int
  user_tag : Nat
deriving DecidableEq, Repr

/-- A callback registration argument: the function pointer `fnc` (an
identifier of the function) and its `fnc_data`. -/
structure io_cb where
  fnc : Nat
  fnc_data : Nat
deriving DecidableEq, Repr

/-- The flag argument of `_gpgme_fdtable_get_fds`, as the set of flags that
are or-ed together. -/
structure fdtable_flags where
  active : Bool
  clear : Bool
deriving DecidableEq, Repr

/-- The flag `FDTABLE_FLAG_ACTIVE`. -/
def FDTABLE_FLAG_ACTIVE : fdtable_flags := ⟨true, false⟩

/-- The flag `FDTABLE_FLAG_CLEAR`. -/
def FDTABLE_FLAG_CLEAR : fdtable_flags := ⟨false, true⟩

/-- The `|` of two flag sets. -/
def fdtable_flags.or (a b : fdtable_flags) : fdtable_flags :=
  ⟨a.active || b.active, a.clear || b.clear⟩

/-- Modelled from the spec: one element of the array `io_select_t` (its
declaration is in priv-io.h, not in `wait.c`): "a list of
`(fd, direction, slot_index)`", which the selector "mutates in place so that
`set_signalled` can recover per-entry readiness". `wait.c` only passes the
array on. -/
structure io_select_s where
  fd : Int
  direction : Int
  slot : Nat
  signaled : Bool
deriving DecidableEq, Repr

/-- One call made by a function of `wait.c` to the fd table, the selector,
the context registry, an engine or a user hook, or one read of a volatile
flag, with the arguments and what came back. (The error-code helpers of
libgpg-error and `calloc` are not recorded.) -/
inductive Call where
  /-- `_gpgme_fdtable_get_fds (&fds, serial, flags)` returned `nfds`. -/
  | get_fds (serial : Nat) (flags : fdtable_flags) (nfds : Nat)
  /-- `_gpgme_io_select (fds, nfds, 0)` returned `nr`. -/
  | io_select (nfds : Nat) (nr : Int)
  /-- `_gpgme_fdtable_set_signaled (fds, nfds)`. -/
  | set_signaled (nfds : Nat)
  /-- `_gpgme_fdtable_run_io_cbs (serial, r_op_err)` returned `err`;
  `op_err` is the cell behind `r_op_err` afterwards (`none`: null pointer). -/
  | run_io_cbs (serial : Nat) (err : Nat) (op_err : Option Nat)
  /-- `_gpgme_fdtable_io_cb_count (serial)` returned `n`. -/
  | io_cb_count (serial : Nat) (n : Nat)
  /-- `_gpgme_fdtable_get_done (serial, status, op_err)` returned `ret`;
  `status` and `op_err` are the two cells afterwards. -/
  | get_done (serial : Nat) (ret : Nat) (status op_err : Option Nat)
  /-- `_gpgme_get_ctx (serial, &ctx)` stored `ctx`. -/
  | get_ctx (serial : Nat) (ctx : Option gpgme_ctx)
  /-- `_gpgme_engine_io_event (engine, type, &data)`. -/
  | engine_io_event (engine : Nat) (type : gpgme_event_io_t)
      (data : gpgme_io_event_done_data)
  /-- `_gpgme_cancel_with_err (serial, err, op_err)`. -/
  | cancel_with_err (serial : Nat) (err op_err : Nat)
  /-- `_gpgme_fdtable_set_io_cb (fd, serial, dir, cb, cb_value)` returned
  `err`. -/
  | set_io_cb (fd : Int) (serial : Nat) (dir : Int) (cb : Option io_cb) (err : Nat)
  /-- `_gpgme_fdtable_set_active (serial)` returned `err`. -/
  | set_active (serial : Nat) (err : Nat)
  /-- `_gpgme_fdtable_set_done (serial, err, op_err)`. -/
  | set_done (serial : Nat) (err op_err : Nat)
  /-- `ctx->user_io_cbs.add (add_priv, fd, dir, user_io_cb_handler, tag,
  &tag->user_tag)` returned `err`. -/
  | user_add (serial : Nat) (fd : Int) (dir : Int) (err : Nat)
  /-- A read of the volatile `*cond` gave `v`. -/
  | read_cond (v : Int)
deriving DecidableEq, Repr

/-- Result of `_gpgme_fdtable_get_fds`: the array stored in `fds` and the
returned count. -/
structure get_fds_ret (W : Type) where
  world : W
  fds : List io_select_s
  nfds : Nat

/-- Result of `_gpgme_io_select`: the array after the call and the returned
`nr`. -/
structure io_select_ret (W : Type) where
  world : W
  fds : List io_select_s
  nr : Int

/-- Result of `_gpgme_fdtable_run_io_cbs`: the returned error and what it
stores through `r_op_err` (`none`: it stores nothing). -/
structure run_io_cbs_ret (W : Type) where
  world : W
  err : Nat
  op_err : Option Nat

/-- Result of `_gpgme_fdtable_get_done`: the returned serial and what it
stores through its two pointers (`none`: it stores nothing). -/
structure get_done_ret (W : Type) where
  world : W
  serial : Nat
  status : Option Nat
  op_err : Option Nat

/-- Result of the hook `ctx->user_io_cbs.add`: the returned error and the
value stored in `tag->user_tag`. -/
structure user_add_ret (W : Type) where
  world : W
  err : Nat
  user_tag : Nat

/-- The functions and constants `wait.c` uses and does not define. -/
structure Env (W : Type) where
  fdtable_set_io_cb : W → Int → Nat → Int → Option io_cb → W × Nat
  fdtable_set_active : W → Nat → W × Nat
  fdtable_get_fds : W → Nat → fdtable_flags → get_fds_ret W
  fdtable_set_signaled : W → List io_select_s → Nat → W
  fdtable_run_io_cbs : W → Nat → Option Nat → run_io_cbs_ret W
  fdtable_io_cb_count : W → Nat → Nat
  fdtable_set_done : W → Nat → Nat → Nat → W
  fdtable_get_done : W → Nat → Option Nat → Option Nat → get_done_ret W
  get_ctx : W → Nat → Option gpgme_ctx
  cancel_with_err : W → Nat → Nat → Nat → W
  engine_io_event : W → Nat → gpgme_event_io_t → gpgme_io_event_done_data → W
  io_select : W → List io_select_s → Nat → io_select_ret W
  gpg_error_from_syserror : W → Nat
  gpg_err_code : Nat → Nat
  GPG_ERR_MISSING_ERRNO : Nat
  GPG_ERR_INV_ARG : Nat
  GPG_ERR_INV_VALUE : Nat
  gpg_error : Nat → Nat
  calloc : W → W × Bool
  user_io_cbs_add : gpgme_ctx → W → Int → Int → io_cb_tag_s → user_add_ret W

/-- The statement `if (p) *p = v;`. -/
def poke (p : Option Nat) (v : Nat) : Option Nat :=
  match p with
  | some _ => some v
  | none => none

/-- The cell behind the pointer `p` after a callee stored `wr` through it
(nothing when `wr` is `none`, and nothing through a null pointer). -/
def stored (p : Option Nat) (wr : Option Nat) : Option Nat :=
  match p, wr with
  | some _, some v => some v
  | _, _ => p

/-- The expression `ctx ? ctx->serial : 0`. -/
def serial_or_0 (ctx : Option gpgme_ctx) : Nat :=
  match ctx with
  | some c => c.serial
  | none => 0

/-- A run of a function with a loop: it returned `r` after the calls `trace`,
or it is still in its loop after the calls `trace` (fuel used up). -/
inductive Run (R : Type) where
  | returned (r : R) (trace : List Call)
  | running (trace : List Call)

/-- The calls of a run. -/
def Run.trace {R : Type} : Run R → List Call
  | .returned _ t => t
  | .running t => t

/-- A run that comes after the calls `pre`. -/
def Run.after {R : Type} (pre : List Call) : Run R → Run R
  | .returned r t => .returned r (pre ++ t)
  | .running t => .running (pre ++ t)

/-! ## `gpgme_wait_ext` -/

/-- What `gpgme_wait_ext` gives back: the returned context, the cells behind
`status` and `op_err`, and the state. -/
structure wait_ext_ret (W : Type) where
  ctx : Option gpgme_ctx
  status : Option Nat
  op_err : Option Nat
  world : W

/-- One pass through the body of the loop of `gpgme_wait_ext`: either the
function returned from inside the body, or the body reached the
`while (hang)` test with these values of the variables. -/
inductive wait_ext_body (W : Type) where
  | returned (r : wait_ext_ret W) (trace : List Call)
  | fell (ctx : Option gpgme_ctx) (status op_err : Option Nat) (hang : Int)
      (world : W) (trace : List Call)

/-- The body of the loop of `gpgme_wait_ext` from the call of
`_gpgme_io_select` on (lines 345-371); `pre` are the calls of the pass made
before. -/
def gpgme_wait_ext_select {W : Type} (env : Env W) (g : get_fds_ret W)
    (ctx : Option gpgme_ctx) (status op_err : Option Nat) (hang : Int)
    (pre : List Call) : wait_ext_body W :=
  let s := env.io_select g.world g.fds g.nfds
  if s.nr < 0 then
    .returned ⟨none, poke status (env.gpg_error_from_syserror s.world), poke op_err 0, s.world⟩
      (pre ++ [Call.io_select g.nfds s.nr])
  else
    let w3 := env.fdtable_set_signaled s.world s.fds g.nfds
    let r := env.fdtable_run_io_cbs w3 (serial_or_0 ctx) none
    let d := env.fdtable_get_done r.world (serial_or_0 ctx) status op_err
    let status1 := stored status d.status
    let op_err1 := stored op_err d.op_err
    let tr := pre ++ [Call.io_select g.nfds s.nr, Call.set_signaled g.nfds,
      Call.run_io_cbs (serial_or_0 ctx) r.err none,
      Call.get_done (serial_or_0 ctx) d.serial status1 op_err1]
    if d.serial ≠ 0 then
      .fell (env.get_ctx d.world d.serial) status1 op_err1 0 d.world
        (tr ++ [Call.get_ctx d.serial (env.get_ctx d.world d.serial)])
    else if hang = 0 then
      .fell none (poke status1 0) (poke op_err1 0) hang d.world tr
    else
      .fell ctx status1 op_err1 hang d.world tr

/-- The body of the loop of `gpgme_wait_ext` (lines 322-372). -/
def gpgme_wait_ext_body {W : Type} (env : Env W) (w : W)
    (ctx : Option gpgme_ctx) (status op_err : Option Nat) (hang : Int) :
    wait_ext_body W :=
  let g := env.fdtable_get_fds w (serial_or_0 ctx)
    (FDTABLE_FLAG_ACTIVE.or FDTABLE_FLAG_CLEAR)
  let c := Call.get_fds (serial_or_0 ctx) (FDTABLE_FLAG_ACTIVE.or FDTABLE_FLAG_CLEAR) g.nfds
  if g.nfds = 0 then
    let err := env.gpg_error_from_syserror g.world
    if env.gpg_err_code err ≠ env.GPG_ERR_MISSING_ERRNO then
      .returned ⟨none, poke status err, poke op_err 0, g.world⟩ [c]
    else
      gpgme_wait_ext_select env g ctx status op_err hang [c]
  else
    gpgme_wait_ext_select env g ctx status op_err hang [c]

/-- The function `gpgme_wait_ext (ctx, status, op_err, hang)`, run for at most
`fuel` passes of its loop. -/
def gpgme_wait_ext {W : Type} (env : Env W) : Nat → W → Option gpgme_ctx →
    Option Nat → Option Nat → Int → Run (wait_ext_ret W)
  | 0, _, _, _, _, _ => .running []
  | fuel + 1, w, ctx, status, op_err, hang =>
    match gpgme_wait_ext_body env w ctx status op_err hang with
    | .returned r tr => .returned r tr
    | .fell ctx1 status1 op_err1 hang1 w1 tr =>
      if hang1 ≠ 0 then
        (gpgme_wait_ext env fuel w1 ctx1 status1 op_err1 hang1).after tr
      else
        .returned ⟨ctx1, status1, op_err1, w1⟩ tr

/-! ## `_gpgme_wait_on_condition` -/

/-- What `_gpgme_wait_on_condition` gives back: the returned error, the cell
behind `r_op_err`, and the state. -/
structure wait_cond_ret (W : Type) where
  err : Nat
  op_err : Option Nat
  world : W

/-- One pass through the body of the loop of `_gpgme_wait_on_condition`:
either the function returned from inside the body, or the body reached the
`while (hang)` test with this value of `hang`. -/
inductive wait_cond_body (W : Type) where
  | returned (r : wait_cond_ret W) (trace : List Call)
  | fell (hang : Int) (op_err : Option Nat) (world : W) (trace : List Call)

/-- The body of the loop of `_gpgme_wait_on_condition` from the call of
`_gpgme_io_select` on (lines 426-452); `pre` are the calls of the pass made
before. `cond`, when not null, reads the volatile flag from the state. -/
def wait_on_condition_select {W : Type} (env : Env W) (g : get_fds_ret W)
    (ctx : gpgme_ctx) (cond : Option (W → Int)) (r_op_err : Option Nat)
    (pre : List Call) : wait_cond_body W :=
  let s := env.io_select g.world g.fds g.nfds
  if s.nr < 0 then
    let err := env.gpg_error_from_syserror s.world
    .returned ⟨err, r_op_err, env.cancel_with_err s.world ctx.serial err 0⟩
      (pre ++ [Call.io_select g.nfds s.nr, Call.cancel_with_err ctx.serial err 0])
  else
    let w3 := env.fdtable_set_signaled s.world s.fds g.nfds
    let r := env.fdtable_run_io_cbs w3 ctx.serial r_op_err
    let op_err1 := stored r_op_err r.op_err
    let tr := pre ++ [Call.io_select g.nfds s.nr, Call.set_signaled g.nfds,
      Call.run_io_cbs ctx.serial r.err op_err1]
    if r.err ≠ 0 ∨ (op_err1 ≠ none ∧ op_err1 ≠ some 0) then
      .returned ⟨r.err, op_err1, r.world⟩ tr
    else
      let n := env.fdtable_io_cb_count r.world ctx.serial
      let tr1 := tr ++ [Call.io_cb_count ctx.serial n]
      let w5 := if n = 0 then
          env.engine_io_event r.world ctx.engine .GPGME_EVENT_DONE ⟨0, 0⟩
        else r.world
      let tr2 := if n = 0 then
          tr1 ++ [Call.engine_io_event ctx.engine .GPGME_EVENT_DONE ⟨0, 0⟩]
        else tr1
      let hang1 : Int := if n = 0 then 0 else 1
      match cond with
      | some rd =>
        .fell (if rd w5 ≠ 0 then 0 else hang1) op_err1 w5 (tr2 ++ [Call.read_cond (rd w5)])
      | none => .fell hang1 op_err1 w5 tr2

/-- The body of the loop of `_gpgme_wait_on_condition` (lines 409-453). -/
def wait_on_condition_body {W : Type} (env : Env W) (w : W)
    (ctx : gpgme_ctx) (cond : Option (W → Int)) (r_op_err : Option Nat) :
    wait_cond_body W :=
  let g := env.fdtable_get_fds w ctx.serial FDTABLE_FLAG_CLEAR
  let c := Call.get_fds ctx.serial FDTABLE_FLAG_CLEAR g.nfds
  if g.nfds = 0 then
    let err := env.gpg_error_from_syserror g.world
    if env.gpg_err_code err ≠ env.GPG_ERR_MISSING_ERRNO then
      .returned ⟨err, r_op_err, g.world⟩ [c]
    else
      wait_on_condition_select env g ctx cond r_op_err [c]
  else
    wait_on_condition_select env g ctx cond r_op_err [c]

/-- The loop `do ... while (hang)` of `_gpgme_wait_on_condition` and the
`return 0` after it, run for at most `fuel` passes. -/
def wait_on_condition_loop {W : Type} (env : Env W) (ctx : gpgme_ctx)
    (cond : Option (W → Int)) : Nat → W → Option Nat → Run (wait_cond_ret W)
  | 0, _, _ => .running []
  | fuel + 1, w, r_op_err =>
    match wait_on_condition_body env w ctx cond r_op_err with
    | .returned r tr => .returned r tr
    | .fell hang op_err1 w1 tr =>
      if hang ≠ 0 then
        (wait_on_condition_loop env ctx cond fuel w1 op_err1).after tr
      else
        .returned ⟨0, op_err1, w1⟩ tr

/-- The function `_gpgme_wait_on_condition (ctx, cond, r_op_err)`, run for at
most `fuel` passes of its loop. -/
def _gpgme_wait_on_condition {W : Type} (env : Env W) (fuel : Nat) (w : W)
    (ctx : Option gpgme_ctx) (cond : Option (W → Int)) (r_op_err : Option Nat) :
    Run (wait_cond_ret W) :=
  match ctx with
  | none => .returned ⟨env.gpg_error env.GPG_ERR_INV_VALUE, poke r_op_err 0, w⟩ []
  | some c => wait_on_condition_loop env c cond fuel w (poke r_op_err 0)

/-! ## Registration -/

/-- What the registration functions give back: the returned error, the tag
stored in `*r_tag` (`none`: nothing was stored), and the state. -/
structure add_io_cb_ret (W : Type) where
  err : Nat
  r_tag : Option io_cb_tag_s
  world : W
  trace : List Call

/-- The function `_gpgme_add_io_cb (data, fd, dir, fnc, fnc_data, r_tag)`;
`none` is a failed assertion. -/
def _gpgme_add_io_cb {W : Type} (env : Env W) (w : W) (data : Option gpgme_ctx)
    (fd : Int) (dir : Int) (fnc : Option Nat) (fnc_data : Nat) :
    Option (add_io_cb_ret W) :=
  match fnc with
  | none => some ⟨env.gpg_error env.GPG_ERR_INV_ARG, none, w, []⟩
  | some f =>
    match data with
    | none => none
    | some ctx =>
      let a := env.calloc w
      if a.2 = false then
        some ⟨env.gpg_error_from_syserror a.1, none, a.1, []⟩
      else
        let tag : io_cb_tag_s := ⟨ctx.serial, fd, 0⟩
        let r := env.fdtable_set_io_cb a.1 fd ctx.serial dir (some ⟨f, fnc_data⟩)
        let tr := [Call.set_io_cb fd ctx.serial dir (some ⟨f, fnc_data⟩) r.2]
        if r.2 ≠ 0 then
          some ⟨r.2, none, r.1, tr⟩
        else
          some ⟨0, some tag, r.1, tr⟩

/-- The function `_gpgme_remove_io_cb (data)`; `none` is a failed
assertion. The result is the state and the calls made. -/
def _gpgme_remove_io_cb {W : Type} (env : Env W) (w : W) (data : Option io_cb_tag_s) :
    Option (W × List Call) :=
  match data with
  | none => none
  | some tag =>
    let r := env.fdtable_set_io_cb w tag.fd tag.serial 0 none
    some (r.1, [Call.set_io_cb tag.fd tag.serial 0 none r.2])

/-- The function `_gpgme_add_io_cb_user (data, fd, dir, fnc, fnc_data,
r_tag)`; `none` is a failed assertion. When the hook fails, `*r_tag` is left
pointing to the freed tag: `r_tag` is then the tag as it was when freed. -/
def _gpgme_add_io_cb_user {W : Type} (env : Env W) (w : W) (data : Option gpgme_ctx)
    (fd : Int) (dir : Int) (fnc : Option Nat) (fnc_data : Nat) :
    Option (add_io_cb_ret W) :=
  match data with
  | none => none
  | some ctx =>
    match _gpgme_add_io_cb env w data fd dir fnc fnc_data with
    | none => none
    | some r =>
      if r.err ≠ 0 then some r
      else
        match r.r_tag with
        | none => none
        | some tag =>
          let u := env.user_io_cbs_add ctx r.world fd dir tag
          let tag1 : io_cb_tag_s := { tag with user_tag := u.user_tag }
          let tr := r.trace ++ [Call.user_add ctx.serial fd dir u.err]
          if u.err ≠ 0 then
            match _gpgme_remove_io_cb env u.world (some tag1) with
            | none => none
            | some x => some ⟨u.err, some tag1, x.1, tr ++ x.2⟩
          else
            some ⟨u.err, some tag1, u.world, tr⟩

/-! ## The wrapper callback of the user loop -/

/-- The function `_gpgme_wait_global_event_cb (data, type, type_data)`;
`none` is a failed assertion. `type_data` is read for a DONE event only. The
result is the state and the calls made. -/
def _gpgme_wait_global_event_cb {W : Type} (env : Env W) (w : W)
    (data : Option gpgme_ctx) (type : gpgme_event_io_t)
    (type_data : gpgme_io_event_done_data) : Option (W × List Call) :=
  match data with
  | none => none
  | some ctx =>
    match type with
    | .GPGME_EVENT_START =>
      let r := env.fdtable_set_active w ctx.serial
      if r.2 ≠ 0 then
        some (env.cancel_with_err r.1 ctx.serial r.2 0,
          [Call.set_active ctx.serial r.2, Call.cancel_with_err ctx.serial r.2 0])
      else
        some (r.1, [Call.set_active ctx.serial r.2])
    | .GPGME_EVENT_DONE =>
      some (env.fdtable_set_done w ctx.serial type_data.err type_data.op_err,
        [Call.set_done ctx.serial type_data.err type_data.op_err])
    | .GPGME_EVENT_NEXT_KEY => none
    | .GPGME_EVENT_NEXT_TRUSTITEM => none
    | .other _ => none

/-! ## The fd table, modelled from the specification

`fdtable.c` is not among the sources. The definitions of this section follow
section 4.1 of the specification; each quotes the sentences it follows. -/

/-- Modelled from the spec: an occupied `FdEntry` of the fd table (the table
itself is in fdtable.c, which is missing): "`fd`, `serial`, `direction`,
`callback`: function pointer + data, `active`, `signalled`". -/
structure FdEntry where
  fd : Int
  serial : Nat
  direction : Int
  callback : io_cb
  active : Bool
  signalled : Bool
deriving DecidableEq, Repr

/-- Modelled from the spec: the state that the missing fdtable.c, engine and
context registry keep, with the inputs that come from outside the library.
* `table`: the slots of the fd table; a free slot ("fd -1, serial 0, callback
  None") is `none`;
* `done`: the recorded terminal states `(serial, err, op_err)`, oldest first;
* `ctxs`: the contexts that exist;
* `events`: the events delivered to engines so far, `(engine, type, data)`;
* `ready`: the fds the operating system reports ready at a select;
* `select_errno`: not 0 when the select system call fails, with that errno;
* `errno`: the C variable `errno`;
* `heap_ok`: whether an allocation succeeds. -/
structure World where
  table : List (Option FdEntry)
  done : List (Nat × Nat × Nat)
  ctxs : List gpgme_ctx
  events : List (Nat × gpgme_event_io_t × gpgme_io_event_done_data)
  ready : List Int
  select_errno : Nat
  errno : Nat
  heap_ok : Bool
deriving DecidableEq, Repr

namespace World

/-- Modelled from the spec: the error kind *ResourceExhausted* ("no free
fd-table slot"); the number is arbitrary, not 0. -/
def ResourceExhausted : Nat := 1001

/-- Modelled from the spec: the error kind *InvalidArgument*; the number is
arbitrary, not 0. -/
def InvalidArgument : Nat := 1002

/-- Modelled from the spec: the error of a removal that finds no registration
(the specification names none); the number is arbitrary, not 0. -/
def NotFound : Nat := 1003

/-- The index of the first slot of `t` that satisfies `p`, counted from
`i`. -/
def find_slot (p : Option FdEntry → Bool) : List (Option FdEntry) → Nat → Option Nat
  | [], _ => none
  | e :: t, i => if p e then some i else find_slot p t (i + 1)

/-- Slot `i` of `t` replaced by `v`. -/
def put_slot (v : Option FdEntry) : List (Option FdEntry) → Nat → List (Option FdEntry)
  | [], _ => []
  | _ :: t, 0 => v :: t
  | e :: t, i + 1 => e :: put_slot v t i

/-- Whether the slot holds a registration of `fd`. -/
def slot_has_fd (fd : Int) (e : Option FdEntry) : Bool :=
  match e with
  | some x => decide (x.fd = fd)
  | none => false

/-- Whether the slot holds a registration of `fd` owned by `serial`. -/
def slot_has_fd_serial (fd : Int) (serial : Nat) (e : Option FdEntry) : Bool :=
  match e with
  | some x => decide (x.fd = fd) && decide (x.serial = serial)
  | none => false

/-- Whether the slot holds a registration in the scope `serial` (0: every
context). -/
def slot_in_scope (serial : Nat) (e : Option FdEntry) : Bool :=
  match e with
  | some x => decide (serial = 0) || decide (x.serial = serial)
  | none => false

/-- Modelled from the spec: `set_io_cb` of the missing fdtable.c. "Finds a
free slot (or the existing slot for this `fd`) and stores the registration. A
null `cb` with `direction == 0` removes. Fails with *Resource Exhausted* if no
slot can be allocated. After registration the entry is inactive". A null `cb`
with another direction is taken as *InvalidArgument* ("null callback"), a
removal that finds no registration of `fd` owned by `serial` as an error; both
leave the table as it is. -/
def fdtable_set_io_cb (w : World) (fd : Int) (serial : Nat) (dir : Int)
    (cb : Option io_cb) : World × Nat :=
  match cb with
  | some c =>
    match find_slot (slot_has_fd fd) w.table 0 with
    | some i => ({ w with table := put_slot (some ⟨fd, serial, dir, c, false, false⟩) w.table i }, 0)
    | none =>
      match find_slot (fun e => e.isNone) w.table 0 with
      | some i =>
        ({ w with table := put_slot (some ⟨fd, serial, dir, c, false, false⟩) w.table i }, 0)
      | none => (w, ResourceExhausted)
  | none =>
    if dir = 0 then
      match find_slot (slot_has_fd_serial fd serial) w.table 0 with
      | some i => ({ w with table := put_slot none w.table i }, 0)
      | none => (w, NotFound)
    else (w, InvalidArgument)

/-- Modelled from the spec: `set_active` of the missing fdtable.c. "Marks all
entries owned by `serial` as `active`. Idempotent." -/
def fdtable_set_active (w : World) (serial : Nat) : World × Nat :=
  ({ w with table := w.table.map (fun e =>
      match e with
      | some x => if x.serial = serial then some { x with active := true } else some x
      | none => none) }, 0)

/-- The snapshot elements of the slots of `t`, counted from slot `i`, for the
scope `serial` and the flag `active`. -/
def snapshot (serial : Nat) (active : Bool) : List (Option FdEntry) → Nat → List io_select_s
  | [], _ => []
  | none :: t, i => snapshot serial active t (i + 1)
  | some x :: t, i =>
    if (serial = 0 ∨ x.serial = serial) ∧ (active = false ∨ x.active = true) then
      ⟨x.fd, x.direction, i, false⟩ :: snapshot serial active t (i + 1)
    else snapshot serial active t (i + 1)

/-- Modelled from the spec: `get_fds` of the missing fdtable.c. "Returns a
list of `(fd, direction, slot_index)` for the requested scope (`serial == 0`
means all contexts)"; "`ACTIVE`: only entries with `active == true`";
"`CLEAR`: when taking the snapshot, also clear `signalled` on every returned
entry". The specification does not describe failure; `wait.c` (lines 329-343)
takes a count of 0 with `errno` set as an error and a count of 0 with `errno`
clear as "nothing to select": here the call fails, with `errno` 12 (ENOMEM),
when the array cannot be allocated, and leaves `errno` at 0 otherwise. -/
def fdtable_get_fds (w : World) (serial : Nat) (flags : fdtable_flags) : get_fds_ret World :=
  if w.heap_ok = false then ⟨{ w with errno := 12 }, [], 0⟩
  else
    let snap := snapshot serial flags.active w.table 0
    let t := if flags.clear then
        w.table.map (fun e =>
          match e with
          | some x =>
            if (serial = 0 ∨ x.serial = serial) ∧ (flags.active = false ∨ x.active = true)
            then some { x with signalled := false } else some x
          | none => none)
      else w.table
    ⟨{ w with table := t, errno := 0 }, snap, snap.length⟩

/-- The select system call as the state scripts it: it fails with
`select_errno` when that is not 0, and otherwise marks the elements whose fd is
in `ready` and returns their number. -/
def io_select (w : World) (fds : List io_select_s) (_nfds : Nat) : io_select_ret World :=
  if w.select_errno ≠ 0 then ⟨{ w with errno := w.select_errno }, fds, -1⟩
  else
    let fds1 := fds.map (fun s => { s with signaled := decide (s.fd ∈ w.ready) })
    ⟨w, fds1, ((fds1.filter (fun s => s.signaled)).length : Nat)⟩

/-- Modelled from the spec: `set_signalled` of the missing fdtable.c. "Marks
every entry listed in the snapshot as `signalled` iff the selector reported
readiness for its fd. Entries not in the snapshot are untouched." -/
def fdtable_set_signaled (w : World) (fds : List io_select_s) (_nfds : Nat) : World :=
  fds.foldl (fun w s =>
    match (w.table.get? s.slot).join with
    | some x =>
      if x.fd = s.fd then
        { w with table := put_slot (some { x with signalled := s.signaled }) w.table s.slot }
      else w
    | none => w) w

/-- Modelled from the spec: `io_cb_count` of the missing fdtable.c. "Number
of currently-occupied entries for the context". -/
def fdtable_io_cb_count (w : World) (serial : Nat) : Nat :=
  (w.table.filter (fun e =>
    match e with
    | some x => decide (x.serial = serial)
    | none => false)).length

/-- The slots, counted from `i`, that hold a registration in the scope
`serial`. -/
def scope_slots (serial : Nat) : List (Option FdEntry) → Nat → List Nat
  | [], _ => []
  | e :: t, i =>
    if slot_in_scope serial e then i :: scope_slots serial t (i + 1)
    else scope_slots serial t (i + 1)

/-- Modelled from the spec: the iteration of `run_io_cbs` over the slots
`slots`. "For every `signalled && active` entry, clears its `signalled` flag
and invokes the callback. If a callback returns an error, iteration stops,
that error is returned"; "Entries removed by a callback are skipped safely".
`cbs c fd w` is the callback `c` run on `fd` in the state `w`: the state it
leaves and the error it returns. -/
def run_io_cbs_slots (cbs : io_cb → Int → World → World × Nat) (serial : Nat) :
    List Nat → World → World × Nat
  | [], w => (w, 0)
  | i :: rest, w =>
    match (w.table.get? i).join with
    | some x =>
      if (serial = 0 ∨ x.serial = serial) ∧ x.signalled = true ∧ x.active = true then
        let w1 := { w with table := put_slot (some { x with signalled := false }) w.table i }
        let r := cbs x.callback x.fd w1
        if r.2 ≠ 0 then r else run_io_cbs_slots cbs serial rest r.1
      else run_io_cbs_slots cbs serial rest w
    | none => run_io_cbs_slots cbs serial rest w

/-- Modelled from the spec: `run_io_cbs` of the missing fdtable.c.
"Iterates occupied entries in the requested scope"; "no entry runs twice per
call"; "New entries added by a callback are *not* visited until the next
call": the slots to visit are fixed when the call starts. Callbacks return one
error; `op_err` "may be set": it is set to 0. -/
def fdtable_run_io_cbs (cbs : io_cb → Int → World → World × Nat) (w : World)
    (serial : Nat) (_r_op_err : Option Nat) : run_io_cbs_ret World :=
  let r := run_io_cbs_slots cbs serial (scope_slots serial w.table 0) w
  ⟨r.1, r.2, some 0⟩

/-- Modelled from the spec: `set_done` of the missing fdtable.c. "Record the
terminal state of a context." -/
def fdtable_set_done (w : World) (serial err op_err : Nat) : World :=
  { w with done := w.done ++ [(serial, err, op_err)] }

/-- The table without the registrations owned by `serial`. -/
def drain (serial : Nat) (t : List (Option FdEntry)) : List (Option FdEntry) :=
  t.map (fun e =>
    match e with
    | some x => if x.serial = serial then none else some x
    | none => none)

/-- Modelled from the spec: `get_done` of the missing fdtable.c. "Consume the
terminal state of a context. `get_done` with `serial == 0` returns any
finished context"; "Consuming a done entry also drains any residual fd
registrations for that context." The oldest matching entry is taken; without
one the result is 0 and nothing is stored. -/
def fdtable_get_done (w : World) (serial : Nat) (_status _op_err : Option Nat) :
    get_done_ret World :=
  match w.done.find? (fun d => decide (serial = 0) || decide (d.1 = serial)) with
  | some d =>
    ⟨{ w with done := w.done.erase d, table := drain d.1 w.table }, d.1, some d.2.1, some d.2.2⟩
  | none => ⟨w, 0, none, none⟩

/-- Modelled from the spec: the lookup `_gpgme_get_ctx` of a context by its
serial ("context lookup is a table operation that returns null if the context
is gone"). -/
def get_ctx (w : World) (serial : Nat) : Option gpgme_ctx :=
  w.ctxs.find? (fun c => decide (c.serial = serial))

/-- Modelled from the spec: the hook `engine_io_event` for a context whose
handler does not act on the event (the private handler "ignores START/DONE"):
the event is delivered, which the state records. -/
def engine_io_event (w : World) (engine : Nat) (type : gpgme_event_io_t)
    (data : gpgme_io_event_done_data) : World :=
  { w with events := w.events ++ [(engine, type, data)] }

/-- Modelled from the spec: `cancel_with_err` (`_gpgme_cancel_with_err` is
not in `wait.c`). "Closes every fd owned by `serial` via the engine hook,
removes every registration for that serial, and posts a DONE with the given
errors." The closing of the fds leaves no mark in the state. -/
def cancel_with_err (w : World) (serial err op_err : Nat) : World :=
  let w1 := { w with table := drain serial w.table }
  match get_ctx w1 serial with
  | some c => engine_io_event w1 c.engine .GPGME_EVENT_DONE ⟨err, op_err⟩
  | none => w1

/-- The registrations the table holds. -/
def registrations (w : World) : List FdEntry :=
  w.table.filterMap id

/-- The environment made of the modelled fd table. `cbs` gives the behaviour
of the registered callbacks and `hook ctx fd dir tag` what the application's
`add` hook of `ctx` returns: its error and the user tag (the hook does not
touch the state of the library). The error values have the layout of
libgpg-error: the code in the low 16 bits, the source (7, this library) from
bit 24 on; a system error has bit 15 set and is written `32768 + errno` here,
and a missing errno is the code `GPG_ERR_MISSING_ERRNO` (16381). -/
def env (cbs : io_cb → Int → World → World × Nat)
    (hook : gpgme_ctx → Int → Int → io_cb_tag_s → Nat × Nat) : Env World where
  fdtable_set_io_cb := fdtable_set_io_cb
  fdtable_set_active := fdtable_set_active
  fdtable_get_fds := fdtable_get_fds
  fdtable_set_signaled := fdtable_set_signaled
  fdtable_run_io_cbs := fdtable_run_io_cbs cbs
  fdtable_io_cb_count := fdtable_io_cb_count
  fdtable_set_done := fdtable_set_done
  fdtable_get_done := fdtable_get_done
  get_ctx := get_ctx
  cancel_with_err := cancel_with_err
  engine_io_event := engine_io_event
  io_select := io_select
  gpg_error_from_syserror := fun w =>
    7 * 2 ^ 24 + (if w.errno = 0 then 16381 else 32768 + w.errno)
  gpg_err_code := fun e => e % 65536
  GPG_ERR_MISSING_ERRNO := 16381
  GPG_ERR_INV_ARG := 45
  GPG_ERR_INV_VALUE := 55
  gpg_error := fun c => 7 * 2 ^ 24 + c
  calloc := fun w => (w, w.heap_ok)
  user_io_cbs_add := fun ctx w fd dir tag => ⟨w, (hook ctx fd dir tag).1, (hook ctx fd dir tag).2⟩

end World

/-! ## Observations on runs -/

/-- The calls of a pass of `_gpgme_wait_on_condition`. -/
def wait_cond_body.trace {W : Type} : wait_cond_body W → List Call
  | .returned _ t => t
  | .fell _ _ _ t => t

namespace World

/-- Sample callbacks, by the number of the function: 1 cancels the context
whose serial is its data with error 99 and returns 0; 2 removes its own
registration and returns the error 7; 3 removes its own registration and
returns 0; any other does nothing and returns 0. -/
def sample_cbs (c : io_cb) (fd : Int) (w : World) : World × Nat :=
  if c.fnc = 1 then (cancel_with_err w c.fnc_data 99 0, 0)
  else if c.fnc = 2 then ((fdtable_set_io_cb w fd c.fnc_data 0 none).1, 7)
  else if c.fnc = 3 then ((fdtable_set_io_cb w fd c.fnc_data 0 none).1, 0)
  else (w, 0)

/-- A sample `add` hook of an application: it refuses fd 9 with the error 13
and accepts every other fd, with the user tag 77. -/
def sample_hook (_ctx : gpgme_ctx) (fd : Int) (_dir : Int) (_tag : io_cb_tag_s) : Nat × Nat :=
  if fd = 9 then (13, 0) else (0, 77)

/-- The environment with the sample callbacks and the sample hook. -/
def sample_env : Env World := env sample_cbs sample_hook

/-- A sample context: serial 1, engine 100. -/
def sample_ctx : gpgme_ctx := ⟨1, 100⟩

/-- A sample state: the context `sample_ctx` has one active registration, of
the callback number `fnc` (with the serial as its data) for reading fd 5, and
the operating system reports fd 5 ready; a second slot is free. -/
def sample (fnc : Nat) : World :=
  { table := [some ⟨5, 1, 1, ⟨fnc, 1⟩, true, false⟩, none], done := [], ctxs := [sample_ctx],
    events := [], ready := [5], select_errno := 0, errno := 0, heap_ok := true }

/-- The sample state with the registration of callback 4 (which does
nothing), after the operation of `sample_ctx` was recorded as done with
`(err, op_err) = (8, 9)`. -/
def sample_finished : World := { sample 4 with done := [(1, 8, 9)] }

/-- The sample state with the registration of callback 4, when the select
system call fails with errno 9 (EBADF). -/
def sample_ebadf : World := { sample 4 with select_errno := 9 }

end World

/-! # Theorems -/

/-! ## Runs and pointers -/
/-- A run that comes after `pre` and has returned. -/
theorem Run.after_eq_returned {R : Type} {pre : List Call} {x : Run R} {r : R}
    {tr : List Call} (h : x.after pre = .returned r tr) :
    ∃ t, x = .returned r t ∧ tr = pre ++ t := by
  cases x with
  | returned r1 t1 =>
    simp only [Run.after, Run.returned.injEq] at h
    exact ⟨t1, by rw [h.1], h.2.symm⟩
  | running t1 => simp [Run.after] at h

/-- The calls of a run that comes after `pre`. -/
theorem Run.trace_after {R : Type} (pre : List Call) (x : Run R) :
    (x.after pre).trace = pre ++ x.trace := by
  cases x <;> rfl

/-- Storing through a pointer does not change whether it is null. -/
theorem poke_stored (p wr : Option Nat) (v : Nat) : poke (stored p wr) v = poke p v := by
  cases p <;> cases wr <;> rfl

/-! ## The global loop -/

/-- What a pass of `gpgme_wait_ext` can be. -/
theorem wait_ext_body_cases {W : Type} (env : Env W) (w : W)
    (ctx : Option gpgme_ctx) (status op_err : Option Nat) (hang : Int) :
    let g := env.fdtable_get_fds w (serial_or_0 ctx) (FDTABLE_FLAG_ACTIVE.or FDTABLE_FLAG_CLEAR)
    let s := env.io_select g.world g.fds g.nfds
    let w3 := env.fdtable_set_signaled s.world s.fds g.nfds
    let r := env.fdtable_run_io_cbs w3 (serial_or_0 ctx) none
    let d := env.fdtable_get_done r.world (serial_or_0 ctx) status op_err
    let c := Call.get_fds (serial_or_0 ctx) (FDTABLE_FLAG_ACTIVE.or FDTABLE_FLAG_CLEAR) g.nfds
    let tr := [c, Call.io_select g.nfds s.nr, Call.set_signaled g.nfds,
      Call.run_io_cbs (serial_or_0 ctx) r.err none,
      Call.get_done (serial_or_0 ctx) d.serial (stored status d.status) (stored op_err d.op_err)]
    (gpgme_wait_ext_body env w ctx status op_err hang =
        .returned ⟨none, poke status (env.gpg_error_from_syserror g.world), poke op_err 0, g.world⟩ [c])
    ∨ (s.nr < 0 ∧ gpgme_wait_ext_body env w ctx status op_err hang =
        .returned ⟨none, poke status (env.gpg_error_from_syserror s.world), poke op_err 0, s.world⟩
          [c, Call.io_select g.nfds s.nr])
    ∨ (0 ≤ s.nr ∧ d.serial ≠ 0 ∧ gpgme_wait_ext_body env w ctx status op_err hang =
        .fell (env.get_ctx d.world d.serial) (stored status d.status) (stored op_err d.op_err) 0
          d.world (tr ++ [Call.get_ctx d.serial (env.get_ctx d.world d.serial)]))
    ∨ (0 ≤ s.nr ∧ d.serial = 0 ∧ hang = 0 ∧ gpgme_wait_ext_body env w ctx status op_err hang =
        .fell none (poke status 0) (poke op_err 0) 0 d.world tr)
    ∨ (0 ≤ s.nr ∧ d.serial = 0 ∧ hang ≠ 0 ∧ gpgme_wait_ext_body env w ctx status op_err hang =
        .fell ctx (stored status d.status) (stored op_err d.op_err) hang d.world tr) := by
  intro g s w3 r d c tr
  have hsel : ∀ pre, pre = [c] →
      (s.nr < 0 ∧ gpgme_wait_ext_select env g ctx status op_err hang pre =
        .returned ⟨none, poke status (env.gpg_error_from_syserror s.world), poke op_err 0, s.world⟩
          [c, Call.io_select g.nfds s.nr])
    ∨ (0 ≤ s.nr ∧ d.serial ≠ 0 ∧ gpgme_wait_ext_select env g ctx status op_err hang pre =
        .fell (env.get_ctx d.world d.serial) (stored status d.status) (stored op_err d.op_err) 0
          d.world (tr ++ [Call.get_ctx d.serial (env.get_ctx d.world d.serial)]))
    ∨ (0 ≤ s.nr ∧ d.serial = 0 ∧ hang = 0 ∧ gpgme_wait_ext_select env g ctx status op_err hang pre =
        .fell none (poke status 0) (poke op_err 0) 0 d.world tr)
    ∨ (0 ≤ s.nr ∧ d.serial = 0 ∧ hang ≠ 0 ∧ gpgme_wait_ext_select env g ctx status op_err hang pre =
        .fell ctx (stored status d.status) (stored op_err d.op_err) hang d.world tr) := by
    intro pre hpre
    subst hpre
    unfold gpgme_wait_ext_select
    by_cases h1 : s.nr < 0
    · left
      refine ⟨h1, ?_⟩
      simp only [s] at h1
      simp [h1, s]
    · have h1' : 0 ≤ s.nr := not_lt.mp h1
      right
      by_cases h2 : d.serial = 0
      · right
        by_cases h3 : hang = 0
        · left
          refine ⟨h1', h2, h3, ?_⟩
          simp only [s, d, r, w3] at h1 h2
          simp [h1, h2, h3, tr, c, s, d, r, w3, poke_stored]
        · right
          refine ⟨h1', h2, h3, ?_⟩
          simp only [s, d, r, w3] at h1 h2
          simp [h1, h2, h3, tr, c, s, d, r, w3]
      · left
        refine ⟨h1', h2, ?_⟩
        simp only [s, d, r, w3] at h1 h2
        simp [h1, h2, tr, c, s, d, r, w3]
  unfold gpgme_wait_ext_body
  by_cases hn : g.nfds = 0
  · by_cases he : env.gpg_err_code (env.gpg_error_from_syserror g.world) ≠ env.GPG_ERR_MISSING_ERRNO
    · left
      simp only [g] at hn he
      simp [hn, he, c, g]
    · right
      simp only [g] at hn he
      simp only [hn, he, if_true, if_false]
      have := hsel [c] rfl
      simpa [c, g, hn] using this
  · right
    simp only [g] at hn
    simp only [hn, if_false]
    have := hsel [c] rfl
    simpa [c, g, hn] using this

/-- Claim C1: `gpgme_wait_ext` returns a finished context and nothing else.
For every environment, `ctx` (null or not), `hang` and number of passes, if the
call returns a context that is not null, then its calls end with a whole pass
(snapshot, select, set_signaled, run_io_cbs, get_done, get_ctx) in which the
selector did not fail and `get_done`, asked for the serial of `ctx` (0 when
`ctx` is null), returned a serial `S` that is not 0; the returned context is
what the lookup of `S` gave, the cells behind `status` and `op_err` are as
`get_done` left them, and no call follows the lookup (no further pass). -/
theorem gpgme_wait_ext_returns_finished {W : Type} (env : Env W) (fuel : Nat) (w : W)
    (ctx : Option gpgme_ctx) (status op_err : Option Nat) (hang : Int)
    (r : wait_ext_ret W) (tr : List Call)
    (h : gpgme_wait_ext env fuel w ctx status op_err hang = .returned r tr)
    (hne : r.ctx ≠ none) :
    ∃ pre nfds nr e S,
      tr = pre ++ [Call.get_fds (serial_or_0 ctx) (FDTABLE_FLAG_ACTIVE.or FDTABLE_FLAG_CLEAR) nfds,
        Call.io_select nfds nr, Call.set_signaled nfds,
        Call.run_io_cbs (serial_or_0 ctx) e none,
        Call.get_done (serial_or_0 ctx) S r.status r.op_err,
        Call.get_ctx S r.ctx] ∧
      0 ≤ nr ∧ S ≠ 0 ∧ r.ctx = env.get_ctx r.world S := by
  induction fuel generalizing w status op_err tr with
  | zero => simp [gpgme_wait_ext] at h
  | succ n ih =>
    unfold gpgme_wait_ext at h
    rcases wait_ext_body_cases env w ctx status op_err hang with
      hb | ⟨_, hb⟩ | ⟨hnr, hS, hb⟩ | ⟨_, _, _, hb⟩ | ⟨_, _, hh, hb⟩
    · rw [hb] at h
      simp only [Run.returned.injEq] at h
      exact absurd (by rw [← h.1]) hne
    · rw [hb] at h
      simp only [Run.returned.injEq] at h
      exact absurd (by rw [← h.1]) hne
    · rw [hb] at h
      simp only [ne_eq, not_true_eq_false, if_false, Run.returned.injEq] at h
      obtain ⟨h1, h2⟩ := h
      subst h1
      subst h2
      exact ⟨[], _, _, _, _, rfl, hnr, hS, rfl⟩
    · rw [hb] at h
      simp only [ne_eq, not_true_eq_false, if_false, Run.returned.injEq] at h
      exact absurd (by rw [← h.1]) hne
    · rw [hb] at h
      simp only [ne_eq, hh, not_false_eq_true, if_true] at h
      obtain ⟨t, ht, htr⟩ := Run.after_eq_returned h
      obtain ⟨pre, nfds, nr, e, S, h1, h2⟩ := ih _ _ _ _ ht
      subst htr
      subst h1
      exact ⟨_, nfds, nr, e, S, (List.append_assoc _ _ _).symm, h2⟩

/-- Witness of C1: with the sample context recorded as done, a hanging wait on
all contexts returns it, with `status = 8` and `op_err = 9`. -/
theorem gpgme_wait_ext_returns_finished_witness :
    ∃ r tr, gpgme_wait_ext World.sample_env 3 World.sample_finished none (some 3) (some 4) 1 =
        .returned r tr ∧ r.ctx = some World.sample_ctx ∧ r.status = some 8 ∧ r.op_err = some 9 ∧
      ∃ pre nfds nr e S,
        tr = pre ++ [Call.get_fds 0 (FDTABLE_FLAG_ACTIVE.or FDTABLE_FLAG_CLEAR) nfds,
          Call.io_select nfds nr, Call.set_signaled nfds, Call.run_io_cbs 0 e none,
          Call.get_done 0 S r.status r.op_err, Call.get_ctx S r.ctx] ∧
        0 ≤ nr ∧ S ≠ 0 ∧ r.ctx = World.sample_env.get_ctx r.world S :=
  ⟨_, _, rfl, rfl, rfl, rfl,
    gpgme_wait_ext_returns_finished World.sample_env 3 World.sample_finished none (some 3)
      (some 4) 1 _ _ rfl (by decide)⟩

/-- What a pass of `_gpgme_wait_on_condition` can be. -/
theorem wait_cond_body_cases {W : Type} (env : Env W) (w : W) (ctx : gpgme_ctx)
    (cond : Option (W → Int)) (r_op_err : Option Nat) :
    let g := env.fdtable_get_fds w ctx.serial FDTABLE_FLAG_CLEAR
    let s := env.io_select g.world g.fds g.nfds
    let w3 := env.fdtable_set_signaled s.world s.fds g.nfds
    let r := env.fdtable_run_io_cbs w3 ctx.serial r_op_err
    let oe := stored r_op_err r.op_err
    let n := env.fdtable_io_cb_count r.world ctx.serial
    let w5 := if n = 0 then env.engine_io_event r.world ctx.engine .GPGME_EVENT_DONE ⟨0, 0⟩
      else r.world
    let c := Call.get_fds ctx.serial FDTABLE_FLAG_CLEAR g.nfds
    let tr := [c, Call.io_select g.nfds s.nr, Call.set_signaled g.nfds,
      Call.run_io_cbs ctx.serial r.err oe]
    let tr2 := tr ++ Call.io_cb_count ctx.serial n ::
      (if n = 0 then [Call.engine_io_event ctx.engine .GPGME_EVENT_DONE ⟨0, 0⟩] else [])
    (wait_on_condition_body env w ctx cond r_op_err =
        .returned ⟨env.gpg_error_from_syserror g.world, r_op_err, g.world⟩ [c])
    ∨ (s.nr < 0 ∧ wait_on_condition_body env w ctx cond r_op_err =
        .returned ⟨env.gpg_error_from_syserror s.world, r_op_err,
            env.cancel_with_err s.world ctx.serial (env.gpg_error_from_syserror s.world) 0⟩
          [c, Call.io_select g.nfds s.nr,
            Call.cancel_with_err ctx.serial (env.gpg_error_from_syserror s.world) 0])
    ∨ (0 ≤ s.nr ∧ (r.err ≠ 0 ∨ (oe ≠ none ∧ oe ≠ some 0)) ∧
        wait_on_condition_body env w ctx cond r_op_err = .returned ⟨r.err, oe, r.world⟩ tr)
    ∨ (0 ≤ s.nr ∧ r.err = 0 ∧ (oe = none ∨ oe = some 0) ∧ cond = none ∧
        wait_on_condition_body env w ctx cond r_op_err =
          .fell (if n = 0 then 0 else 1) oe w5 tr2)
    ∨ (0 ≤ s.nr ∧ r.err = 0 ∧ (oe = none ∨ oe = some 0) ∧ ∃ rd, cond = some rd ∧
        wait_on_condition_body env w ctx cond r_op_err =
          .fell (if rd w5 ≠ 0 then 0 else if n = 0 then 0 else 1) oe w5
            (tr2 ++ [Call.read_cond (rd w5)])) := by
  intro g s w3 r oe n w5 c tr tr2
  have hsel :
      (s.nr < 0 ∧ wait_on_condition_select env g ctx cond r_op_err [c] =
        .returned ⟨env.gpg_error_from_syserror s.world, r_op_err,
            env.cancel_with_err s.world ctx.serial (env.gpg_error_from_syserror s.world) 0⟩
          [c, Call.io_select g.nfds s.nr,
            Call.cancel_with_err ctx.serial (env.gpg_error_from_syserror s.world) 0])
    ∨ (0 ≤ s.nr ∧ (r.err ≠ 0 ∨ (oe ≠ none ∧ oe ≠ some 0)) ∧
        wait_on_condition_select env g ctx cond r_op_err [c] = .returned ⟨r.err, oe, r.world⟩ tr)
    ∨ (0 ≤ s.nr ∧ r.err = 0 ∧ (oe = none ∨ oe = some 0) ∧ cond = none ∧
        wait_on_condition_select env g ctx cond r_op_err [c] =
          .fell (if n = 0 then 0 else 1) oe w5 tr2)
    ∨ (0 ≤ s.nr ∧ r.err = 0 ∧ (oe = none ∨ oe = some 0) ∧ ∃ rd, cond = some rd ∧
        wait_on_condition_select env g ctx cond r_op_err [c] =
          .fell (if rd w5 ≠ 0 then 0 else if n = 0 then 0 else 1) oe w5
            (tr2 ++ [Call.read_cond (rd w5)])) := by
    unfold wait_on_condition_select
    by_cases h1 : s.nr < 0
    · left
      refine ⟨h1, ?_⟩
      simp only [s] at h1
      simp [h1, s, c]
    · have h1' : 0 ≤ s.nr := not_lt.mp h1
      right
      by_cases h2 : r.err ≠ 0 ∨ (oe ≠ none ∧ oe ≠ some 0)
      · left
        refine ⟨h1', h2, ?_⟩
        simp only [s, r, oe, w3] at h1 h2
        simp only [h1, h2, if_true, if_false]
        simp [tr, c, s, r, oe, w3]
      · right
        have h2' : r.err = 0 ∧ (oe = none ∨ oe = some 0) := by
          constructor
          · by_contra hx; exact h2 (Or.inl hx)
          · by_contra hx
            push_neg at hx
            exact h2 (Or.inr hx)
        simp only [s, r, oe, w3] at h1 h2
        cases cond with
        | none =>
          left
          refine ⟨h1', h2'.1, h2'.2, rfl, ?_⟩
          simp only [h1, h2, if_false]
          by_cases hn : n = 0
          · simp only [n, r, w3, s] at hn
            simp [hn, tr2, tr, c, s, r, oe, w3, n, w5]
          · simp only [n, r, w3, s] at hn
            simp [hn, tr2, tr, c, s, r, oe, w3, n, w5]
        | some rd =>
          right
          refine ⟨h1', h2'.1, h2'.2, rd, rfl, ?_⟩
          simp only [h1, h2, if_false]
          by_cases hn : n = 0
          · simp only [n, r, w3, s] at hn
            simp [hn, tr2, tr, c, s, r, oe, w3, n, w5]
          · simp only [n, r, w3, s] at hn
            simp [hn, tr2, tr, c, s, r, oe, w3, n, w5]
  unfold wait_on_condition_body
  by_cases hn : g.nfds = 0
  · by_cases he : env.gpg_err_code (env.gpg_error_from_syserror g.world) ≠ env.GPG_ERR_MISSING_ERRNO
    · left
      simp only [g] at hn he
      simp [hn, he, c, g]
    · right
      simp only [g] at hn he
      simp only [hn, he, if_true, if_false]
      simpa [c, g, hn] using hsel
  · right
    simp only [g] at hn
    simp only [hn, if_false]
    simpa [c, g, hn] using hsel

/-- The case analysis of a pass with names for the intermediate results. -/
theorem wait_cond_body_cases_named {W : Type} (env : Env W) (w : W) (ctx : gpgme_ctx)
    (cond : Option (W → Int)) (r_op_err : Option Nat) :
    ∃ (g : get_fds_ret W) (s : io_select_ret W) (r : run_io_cbs_ret W) (oe : Option Nat)
      (n : Nat) (w5 : W),
      g = env.fdtable_get_fds w ctx.serial FDTABLE_FLAG_CLEAR ∧
      s = env.io_select g.world g.fds g.nfds ∧
      n = env.fdtable_io_cb_count r.world ctx.serial ∧
      ((wait_on_condition_body env w ctx cond r_op_err =
          .returned ⟨env.gpg_error_from_syserror g.world, r_op_err, g.world⟩
            [Call.get_fds ctx.serial FDTABLE_FLAG_CLEAR g.nfds])
      ∨ (s.nr < 0 ∧ wait_on_condition_body env w ctx cond r_op_err =
          .returned ⟨env.gpg_error_from_syserror s.world, r_op_err,
              env.cancel_with_err s.world ctx.serial (env.gpg_error_from_syserror s.world) 0⟩
            [Call.get_fds ctx.serial FDTABLE_FLAG_CLEAR g.nfds, Call.io_select g.nfds s.nr,
              Call.cancel_with_err ctx.serial (env.gpg_error_from_syserror s.world) 0])
      ∨ (0 ≤ s.nr ∧ (r.err ≠ 0 ∨ (oe ≠ none ∧ oe ≠ some 0)) ∧
          wait_on_condition_body env w ctx cond r_op_err = .returned ⟨r.err, oe, r.world⟩
            [Call.get_fds ctx.serial FDTABLE_FLAG_CLEAR g.nfds, Call.io_select g.nfds s.nr,
              Call.set_signaled g.nfds, Call.run_io_cbs ctx.serial r.err oe])
      ∨ (0 ≤ s.nr ∧ r.err = 0 ∧ (oe = none ∨ oe = some 0) ∧ cond = none ∧
          wait_on_condition_body env w ctx cond r_op_err =
            .fell (if n = 0 then 0 else 1) oe w5
              ([Call.get_fds ctx.serial FDTABLE_FLAG_CLEAR g.nfds, Call.io_select g.nfds s.nr,
                Call.set_signaled g.nfds, Call.run_io_cbs ctx.serial r.err oe] ++
                Call.io_cb_count ctx.serial n ::
                (if n = 0 then [Call.engine_io_event ctx.engine .GPGME_EVENT_DONE ⟨0, 0⟩]
                 else [])))
      ∨ (0 ≤ s.nr ∧ r.err = 0 ∧ (oe = none ∨ oe = some 0) ∧ ∃ rd, cond = some rd ∧
          wait_on_condition_body env w ctx cond r_op_err =
            .fell (if rd w5 ≠ 0 then 0 else if n = 0 then 0 else 1) oe w5
              ([Call.get_fds ctx.serial FDTABLE_FLAG_CLEAR g.nfds, Call.io_select g.nfds s.nr,
                Call.set_signaled g.nfds, Call.run_io_cbs ctx.serial r.err oe] ++
                Call.io_cb_count ctx.serial n ::
                (if n = 0 then [Call.engine_io_event ctx.engine .GPGME_EVENT_DONE ⟨0, 0⟩]
                 else []) ++ [Call.read_cond (rd w5)]))) :=
  ⟨_, _, _, _, _, _, rfl, rfl, rfl, wait_cond_body_cases env w ctx cond r_op_err⟩

/-- A pass of `_gpgme_wait_on_condition` that returns from inside the body
ends at the snapshot, at a failed select, or at a dispatch error. -/
theorem wait_cond_body_returned {W : Type} (env : Env W) (w : W) (ctx : gpgme_ctx)
    (cond : Option (W → Int)) (r_op_err : Option Nat) (r : wait_cond_ret W) (tr : List Call)
    (hb : wait_on_condition_body env w ctx cond r_op_err = .returned r tr) :
    (∃ nfds, tr = [Call.get_fds ctx.serial FDTABLE_FLAG_CLEAR nfds])
    ∨ (∃ nfds nr, nr < 0 ∧
        tr = [Call.get_fds ctx.serial FDTABLE_FLAG_CLEAR nfds, Call.io_select nfds nr,
          Call.cancel_with_err ctx.serial r.err 0] ∧
        r.err = env.gpg_error_from_syserror
          (env.io_select (env.fdtable_get_fds w ctx.serial FDTABLE_FLAG_CLEAR).world
            (env.fdtable_get_fds w ctx.serial FDTABLE_FLAG_CLEAR).fds nfds).world ∧
        r.world = env.cancel_with_err
          (env.io_select (env.fdtable_get_fds w ctx.serial FDTABLE_FLAG_CLEAR).world
            (env.fdtable_get_fds w ctx.serial FDTABLE_FLAG_CLEAR).fds nfds).world
          ctx.serial r.err 0)
    ∨ (∃ nfds nr, 0 ≤ nr ∧
        tr = [Call.get_fds ctx.serial FDTABLE_FLAG_CLEAR nfds, Call.io_select nfds nr,
          Call.set_signaled nfds, Call.run_io_cbs ctx.serial r.err r.op_err] ∧
        (r.err ≠ 0 ∨ (r.op_err ≠ none ∧ r.op_err ≠ some 0))) := by
  obtain ⟨g, s, r1, oe, n, w5, hg, hs, hn, h⟩ :=
    wait_cond_body_cases_named env w ctx cond r_op_err
  rcases h with h | ⟨hlt, h⟩ | ⟨hnr, he, h⟩ | ⟨_, _, _, _, h⟩ | ⟨_, _, _, rd, _, h⟩
  · rw [h] at hb
    injection hb with h1 h2
    exact Or.inl ⟨g.nfds, h2.symm⟩
  · rw [h] at hb
    injection hb with h1 h2
    subst h1
    refine Or.inr (Or.inl ⟨g.nfds, s.nr, hlt, h2.symm, ?_, ?_⟩)
    · rw [hs, hg]
    · rw [hs, hg]
  · rw [h] at hb
    injection hb with h1 h2
    subst h1
    exact Or.inr (Or.inr ⟨g.nfds, s.nr, hnr, h2.symm, he⟩)
  · rw [h] at hb
    cases hb
  · rw [h] at hb
    cases hb

/-- A pass of `_gpgme_wait_on_condition` that reaches the `while (hang)`
test. -/
theorem wait_cond_body_fell {W : Type} (env : Env W) (w : W) (ctx : gpgme_ctx)
    (cond : Option (W → Int)) (r_op_err : Option Nat) (hang : Int) (oe : Option Nat)
    (w1 : W) (tr : List Call)
    (hb : wait_on_condition_body env w ctx cond r_op_err = .fell hang oe w1 tr) :
    ∃ nfds nr n dn cd, 0 ≤ nr ∧ (oe = none ∨ oe = some 0) ∧
      tr = [Call.get_fds ctx.serial FDTABLE_FLAG_CLEAR nfds, Call.io_select nfds nr,
        Call.set_signaled nfds, Call.run_io_cbs ctx.serial 0 oe,
        Call.io_cb_count ctx.serial n] ++ dn ++ cd ∧
      (n = 0 → dn = [Call.engine_io_event ctx.engine .GPGME_EVENT_DONE ⟨0, 0⟩]) ∧
      (n ≠ 0 → dn = []) ∧
      (cond = none → cd = []) ∧
      (∀ rd, cond = some rd → cd = [Call.read_cond (rd w1)]) ∧
      (hang = 0 ↔ (n = 0 ∨ ∃ rd, cond = some rd ∧ rd w1 ≠ 0)) := by
  obtain ⟨g, s, r1, oe1, n, w5, hg, hs, hn, h⟩ :=
    wait_cond_body_cases_named env w ctx cond r_op_err
  clear hg hs hn
  rcases h with h | ⟨hlt, h⟩ | ⟨hnr, he, h⟩ | ⟨hnr, he, hoe, hc, h⟩ | ⟨hnr, he, hoe, rd, hc, h⟩
  · rw [h] at hb
    cases hb
  · rw [h] at hb
    cases hb
  · rw [h] at hb
    cases hb
  · rw [h, he] at hb
    injection hb with h1 h2 h3 h4
    subst h2
    subst h3
    refine ⟨g.nfds, s.nr, n,
      (if n = 0 then [Call.engine_io_event ctx.engine .GPGME_EVENT_DONE ⟨0, 0⟩] else []), [],
      hnr, hoe, ?_, fun hn => if_pos hn, fun hn => if_neg hn, fun _ => rfl, ?_, ?_⟩
    · rw [← h4]
      simp
    · intro rd hrd
      rw [hc] at hrd
      cases hrd
    · rw [← h1]
      subst hc
      by_cases hy : n = 0 <;> simp [hy]
  · rw [h, he] at hb
    injection hb with h1 h2 h3 h4
    subst h2
    subst h3
    refine ⟨g.nfds, s.nr, n,
      (if n = 0 then [Call.engine_io_event ctx.engine .GPGME_EVENT_DONE ⟨0, 0⟩] else []),
      [Call.read_cond (rd w5)],
      hnr, hoe, ?_, fun hn => if_pos hn, fun hn => if_neg hn, ?_, ?_, ?_⟩
    · rw [← h4]
      simp
    · intro hcn
      rw [hc] at hcn
      cases hcn
    · intro rd2 hrd
      rw [hc] at hrd
      cases hrd
      rfl
    · rw [← h1]
      subst hc
      by_cases hx : rd w5 = 0 <;> by_cases hy : n = 0 <;> simp [hx, hy]

/-- A failed select ends the loop of `_gpgme_wait_on_condition` with one
cancellation. -/
theorem wait_on_condition_loop_select_failure {W : Type} (env : Env W) (fuel : Nat) (w : W)
    (ctx : gpgme_ctx) (cond : Option (W → Int)) (r_op_err : Option Nat)
    (nfds : Nat) (nr : Int) (hneg : nr < 0)
    (hmem : Call.io_select nfds nr ∈ (wait_on_condition_loop env ctx cond fuel w r_op_err).trace) :
    ∃ r pre w1,
      wait_on_condition_loop env ctx cond fuel w r_op_err = .returned r
        (pre ++ [Call.get_fds ctx.serial FDTABLE_FLAG_CLEAR nfds, Call.io_select nfds nr,
          Call.cancel_with_err ctx.serial r.err 0]) ∧
      (∀ s e o, Call.cancel_with_err s e o ∉ pre) ∧
      r.err = env.gpg_error_from_syserror
        (env.io_select (env.fdtable_get_fds w1 ctx.serial FDTABLE_FLAG_CLEAR).world
          (env.fdtable_get_fds w1 ctx.serial FDTABLE_FLAG_CLEAR).fds nfds).world ∧
      r.world = env.cancel_with_err
        (env.io_select (env.fdtable_get_fds w1 ctx.serial FDTABLE_FLAG_CLEAR).world
          (env.fdtable_get_fds w1 ctx.serial FDTABLE_FLAG_CLEAR).fds nfds).world
        ctx.serial r.err 0 := by
  induction fuel generalizing w r_op_err with
  | zero => simp [wait_on_condition_loop, Run.trace] at hmem
  | succ k ih =>
    unfold wait_on_condition_loop at hmem ⊢
    cases hb : wait_on_condition_body env w ctx cond r_op_err with
    | returned r tr =>
      rw [hb] at hmem
      simp only [Run.trace] at hmem
      rcases wait_cond_body_returned env w ctx cond r_op_err r tr hb with
        ⟨n1, h1⟩ | ⟨n1, nr1, hlt, h1, h2, h3⟩ | ⟨n1, nr1, hge, h1, _⟩
      · rw [h1] at hmem
        simp at hmem
      · rw [h1] at hmem
        simp at hmem
        obtain ⟨e1, e2⟩ := hmem
        subst e1
        subst e2
        exact ⟨r, [], w, by rw [h1]; rfl, by simp, h2, h3⟩
      · rw [h1] at hmem
        simp at hmem
        omega
    | fell hang oe w1 tr =>
      rw [hb] at hmem
      obtain ⟨n1, nr1, n, dn, cd, hge, _, htr, hd0, hd1, hc0, hc1, _⟩ :=
        wait_cond_body_fell env w ctx cond r_op_err hang oe w1 tr hb
      have hnotin : Call.io_select nfds nr ∉ tr := by
        intro hin
        rw [htr] at hin
        have hdn : Call.io_select nfds nr ∉ dn := by
          by_cases hn : n = 0
          · rw [hd0 hn]; simp
          · rw [hd1 hn]; simp
        have hcd : Call.io_select nfds nr ∉ cd := by
          cases hcond : cond with
          | none => rw [hc0 hcond]; simp
          | some rd => rw [hc1 rd hcond]; simp
        simp [hdn, hcd] at hin
        omega
      have hnocancel : ∀ s e o, Call.cancel_with_err s e o ∉ tr := by
        intro s e o hin
        rw [htr] at hin
        have hdn : Call.cancel_with_err s e o ∉ dn := by
          by_cases hn : n = 0
          · rw [hd0 hn]; simp
          · rw [hd1 hn]; simp
        have hcd : Call.cancel_with_err s e o ∉ cd := by
          cases hcond : cond with
          | none => rw [hc0 hcond]; simp
          | some rd => rw [hc1 rd hcond]; simp
        simp [hdn, hcd] at hin
      by_cases hh : hang ≠ 0
      · simp only at hmem ⊢
        rw [if_pos hh] at hmem ⊢
        rw [Run.trace_after] at hmem
        rcases List.mem_append.mp hmem with hm | hm
        · exact absurd hm hnotin
        · obtain ⟨r, pre, w2, h1, h2, h3, h4⟩ := ih _ _ hm
          rw [h1]
          refine ⟨r, tr ++ pre, w2, ?_, ?_, h3, h4⟩
          · simp [Run.after]
          · intro s e o hc
            rcases List.mem_append.mp hc with hc | hc
            · exact hnocancel s e o hc
            · exact h2 s e o hc
      · simp only at hmem
        rw [if_neg hh] at hmem
        exact absurd hmem hnotin

/-- Claim C4: selector failure in the private loop. For every context (not
null), whenever a select returns a negative `nr` in a run of
`_gpgme_wait_on_condition`, the function returns right there: its last pass is
the snapshot, the select and the one call `cancel_with_err (ctx.serial, e, 0)`,
where `e`, the error read from errno in the state the selector left, is also
the value returned. No callback is dispatched in that pass, no cancellation
was made before it, and when cancellation drains the table (`hdrain`),
`io_cb_count (ctx.serial)` is 0 in the state at return. -/
theorem wait_on_condition_select_failure {W : Type} (env : Env W) (fuel : Nat) (w : W)
    (ctx : gpgme_ctx) (cond : Option (W → Int)) (r_op_err : Option Nat)
    (nfds : Nat) (nr : Int) (hneg : nr < 0)
    (hmem : Call.io_select nfds nr ∈
      (_gpgme_wait_on_condition env fuel w (some ctx) cond r_op_err).trace)
    (hdrain : ∀ w s e o, env.fdtable_io_cb_count (env.cancel_with_err w s e o) s = 0) :
    ∃ r pre w1,
      _gpgme_wait_on_condition env fuel w (some ctx) cond r_op_err = .returned r
        (pre ++ [Call.get_fds ctx.serial FDTABLE_FLAG_CLEAR nfds, Call.io_select nfds nr,
          Call.cancel_with_err ctx.serial r.err 0]) ∧
      (∀ s e o, Call.cancel_with_err s e o ∉ pre) ∧
      r.err = env.gpg_error_from_syserror
        (env.io_select (env.fdtable_get_fds w1 ctx.serial FDTABLE_FLAG_CLEAR).world
          (env.fdtable_get_fds w1 ctx.serial FDTABLE_FLAG_CLEAR).fds nfds).world ∧
      r.world = env.cancel_with_err
        (env.io_select (env.fdtable_get_fds w1 ctx.serial FDTABLE_FLAG_CLEAR).world
          (env.fdtable_get_fds w1 ctx.serial FDTABLE_FLAG_CLEAR).fds nfds).world
        ctx.serial r.err 0 ∧
      env.fdtable_io_cb_count r.world ctx.serial = 0 := by
  unfold _gpgme_wait_on_condition at hmem ⊢
  simp only at hmem ⊢
  obtain ⟨r, pre, w1, h1, h2, h3, h4⟩ :=
    wait_on_condition_loop_select_failure env fuel w ctx cond _ nfds nr hneg hmem
  refine ⟨r, pre, w1, h1, h2, h3, h4, ?_⟩
  rw [h4]
  exact hdrain _ _ _ _

/-- Cancellation drains the modelled table: afterwards the context has no
registration. -/
theorem World.cancel_with_err_drains (w : World) (serial err op_err : Nat) :
    World.fdtable_io_cb_count (World.cancel_with_err w serial err op_err) serial = 0 := by
  have hd : ∀ t : List (Option FdEntry),
      (List.filter (fun e => match e with
        | some x => decide (x.serial = serial)
        | none => false) (World.drain serial t)).length = 0 := by
    intro t
    induction t with
    | nil => rfl
    | cons e t ih =>
      cases e with
      | none => simpa [World.drain] using ih
      | some x =>
        by_cases hx : x.serial = serial
        · simpa [World.drain, hx] using ih
        · simpa [World.drain, hx] using ih
  unfold World.cancel_with_err World.fdtable_io_cb_count
  simp only
  split
  · exact hd w.table
  · exact hd w.table

/-- Witness of C4: the select fails with EBADF in the first pass of a wait on
the sample context; the context is cancelled and has no registration left. -/
theorem wait_on_condition_select_failure_witness :
    Call.io_select 1 (-1) ∈
      (_gpgme_wait_on_condition World.sample_env 3 World.sample_ebadf
        (some World.sample_ctx) none (some 3)).trace ∧
    ∃ r pre,
      _gpgme_wait_on_condition World.sample_env 3 World.sample_ebadf
          (some World.sample_ctx) none (some 3) = .returned r
        (pre ++ [Call.get_fds 1 FDTABLE_FLAG_CLEAR 1, Call.io_select 1 (-1),
          Call.cancel_with_err 1 r.err 0]) ∧
      (∀ s e o, Call.cancel_with_err s e o ∉ pre) ∧
      World.fdtable_io_cb_count r.world 1 = 0 :=
  ⟨by decide,
    let ⟨r, pre, _, h1, h2, _, _, h5⟩ :=
      wait_on_condition_select_failure World.sample_env 3 World.sample_ebadf World.sample_ctx
        none (some 3) 1 (-1) (by decide) (by decide)
        (fun w s e o => World.cancel_with_err_drains w s e o)
    ⟨r, pre, h1, h2, h5⟩⟩

/-- Claim C9: the event handler of the global loop. For every context that is
not null, `_gpgme_wait_global_event_cb`
* on START calls `set_active` for the serial of the context and nothing else,
  unless that fails with an error `e`: then it also cancels the context with
  `(e, 0)`;
* on DONE makes the one call `set_done (ctx.serial, err, op_err)` with the pair
  of the event, and no call for another context;
* on NEXT_KEY, on NEXT_TRUSTITEM and on any other event kind fails an
  assertion. -/
theorem wait_global_event_cb_dispatch {W : Type} (env : Env W) (w : W) (ctx : gpgme_ctx)
    (d : gpgme_io_event_done_data) :
    (_gpgme_wait_global_event_cb env w (some ctx) .GPGME_EVENT_START d =
      if (env.fdtable_set_active w ctx.serial).2 ≠ 0 then
        some (env.cancel_with_err (env.fdtable_set_active w ctx.serial).1 ctx.serial
            (env.fdtable_set_active w ctx.serial).2 0,
          [Call.set_active ctx.serial (env.fdtable_set_active w ctx.serial).2,
           Call.cancel_with_err ctx.serial (env.fdtable_set_active w ctx.serial).2 0])
      else
        some ((env.fdtable_set_active w ctx.serial).1, [Call.set_active ctx.serial 0])) ∧
    _gpgme_wait_global_event_cb env w (some ctx) .GPGME_EVENT_DONE d =
      some (env.fdtable_set_done w ctx.serial d.err d.op_err,
        [Call.set_done ctx.serial d.err d.op_err]) ∧
    _gpgme_wait_global_event_cb env w (some ctx) .GPGME_EVENT_NEXT_KEY d = none ∧
    _gpgme_wait_global_event_cb env w (some ctx) .GPGME_EVENT_NEXT_TRUSTITEM d = none ∧
    ∀ n, _gpgme_wait_global_event_cb env w (some ctx) (.other n) d = none := by
  refine ⟨?_, rfl, rfl, rfl, fun _ => rfl⟩
  unfold _gpgme_wait_global_event_cb
  simp only
  by_cases h : (env.fdtable_set_active w ctx.serial).2 = 0
  · simp [h]
  · simp [h]

/-! ## Registration and the modelled fd table -/

namespace World

/-- A slot found from offset `k` on has an index of at least `k`. -/
theorem find_slot_ge (p : Option FdEntry → Bool) (t : List (Option FdEntry)) (k i : Nat)
    (h : find_slot p t k = some i) : k ≤ i := by
  induction t generalizing k with
  | nil => simp [find_slot] at h
  | cons e t ih =>
    unfold find_slot at h
    split at h
    · cases h; exact Nat.le_refl _
    · exact Nat.le_of_succ_le (ih _ h)

/-- Storing into the slot that a search has found and then searching for what
was stored finds the same slot, when no earlier slot matches the second
search; freeing that slot gives the table with the slot freed. -/
theorem find_put_slot (p q : Option FdEntry → Bool) (x : FdEntry)
    (t : List (Option FdEntry)) (k i : Nat)
    (h : find_slot p t k = some i) (hq : q (some x) = true)
    (hpre : ∀ e ∈ t, p e = false → q e = false) :
    find_slot q (put_slot (some x) t (i - k)) k = some i ∧
    put_slot none (put_slot (some x) t (i - k)) (i - k) = put_slot none t (i - k) := by
  induction t generalizing k with
  | nil => simp [find_slot] at h
  | cons e t ih =>
    unfold find_slot at h
    split at h
    · cases h
      simp [put_slot, find_slot, hq]
    · rename_i hp
      have hge := find_slot_ge p t (k + 1) i h
      obtain ⟨m, hm⟩ : ∃ m, i - k = m + 1 := ⟨i - k - 1, by omega⟩
      have hm2 : i - (k + 1) = m := by omega
      have := ih (k + 1) h (fun e he => hpre e (List.mem_cons_of_mem _ he))
      rw [hm2] at this
      rw [hm]
      simp only [put_slot, find_slot]
      have hqe : q e = false := hpre e (List.mem_cons_self _ _) (by simpa using hp)
      simp [hqe, this.1, this.2]

/-- Freeing the first free slot changes nothing. -/
theorem put_slot_none_of_free (t : List (Option FdEntry)) (k i : Nat)
    (h : find_slot (fun e => e.isNone) t k = some i) :
    put_slot none t (i - k) = t := by
  induction t generalizing k with
  | nil => rfl
  | cons e t ih =>
    unfold find_slot at h
    split at h
    · rename_i hp
      cases h
      cases e with
      | none => simp [put_slot]
      | some x => simp at hp
    · have hge := find_slot_ge _ t (k + 1) i h
      obtain ⟨m, hm⟩ : ∃ m, i - k = m + 1 := ⟨i - k - 1, by omega⟩
      have hm2 : i - (k + 1) = m := by omega
      have := ih (k + 1) h
      rw [hm2] at this
      rw [hm]
      simp [put_slot, this]

/-- A search that finds nothing: no slot matches. -/
theorem find_slot_none (p : Option FdEntry → Bool) (t : List (Option FdEntry)) (k : Nat)
    (h : find_slot p t k = none) : ∀ e ∈ t, p e = false := by
  induction t generalizing k with
  | nil => simp
  | cons e t ih =>
    unfold find_slot at h
    split at h
    · cases h
    · rename_i hp
      intro e2 he2
      rcases List.mem_cons.mp he2 with rfl | he2
      · simpa using hp
      · exact ih _ h e2 he2

/-- A search that finds a slot: some slot matches. -/
theorem find_slot_some (p : Option FdEntry → Bool) (t : List (Option FdEntry)) (k i : Nat)
    (h : find_slot p t k = some i) : ∃ e ∈ t, p e = true := by
  induction t generalizing k with
  | nil => simp [find_slot] at h
  | cons e t ih =>
    unfold find_slot at h
    split at h
    · rename_i hp
      exact ⟨e, List.mem_cons_self _ _, hp⟩
    · obtain ⟨e2, he2, hp2⟩ := ih _ h
      exact ⟨e2, List.mem_cons_of_mem _ he2, hp2⟩

/-- Freeing a slot adds no registration. -/
theorem mem_filterMap_put_slot_none (t : List (Option FdEntry)) (i : Nat) (e : FdEntry)
    (h : e ∈ (put_slot none t i).filterMap id) : e ∈ t.filterMap id := by
  induction t generalizing i with
  | nil => simp [put_slot] at h
  | cons a t ih =>
    cases i with
    | zero =>
      simp only [put_slot, List.filterMap_cons, id] at h
      simp only [List.mem_filterMap, id] at h ⊢
      obtain ⟨y, hy, hye⟩ := h
      exact ⟨y, List.mem_cons_of_mem _ hy, hye⟩
    | succ i =>
      simp only [put_slot] at h
      simp only [List.mem_filterMap, id, List.mem_cons] at h ih ⊢
      obtain ⟨y, hy, hye⟩ := h
      rcases hy with rfl | hy
      · exact ⟨y, Or.inl rfl, hye⟩
      · obtain ⟨z, hz, hze⟩ := ih i ⟨y, hy, hye⟩
        exact ⟨z, Or.inr hz, hze⟩

/-- A slot without `fd` is not a slot of `fd` owned by `serial`. -/
theorem slot_has_fd_serial_of_not_fd (fd : Int) (serial : Nat) (e : Option FdEntry)
    (h : slot_has_fd fd e = false) : slot_has_fd_serial fd serial e = false := by
  cases e with
  | none => rfl
  | some x =>
    simp [slot_has_fd] at h
    simp [slot_has_fd_serial, h]

/-- Registering a callback for `fd` and then removing the registration frees
the slot that was used, whatever it held before. -/
theorem set_io_cb_add_remove (w : World) (fd : Int) (serial : Nat) (dir : Int) (c : io_cb)
    (h : (fdtable_set_io_cb w fd serial dir (some c)).2 = 0) :
    ∃ i, (fdtable_set_io_cb w fd serial dir (some c)).1 =
        { w with table := put_slot (some ⟨fd, serial, dir, c, false, false⟩) w.table i } ∧
      fdtable_set_io_cb (fdtable_set_io_cb w fd serial dir (some c)).1 fd serial 0 none =
        ({ w with table := put_slot none w.table i }, 0) ∧
      ((∀ e ∈ w.table, slot_has_fd fd e = false) → put_slot none w.table i = w.table) := by
  unfold fdtable_set_io_cb at h ⊢
  simp only at h ⊢
  cases h1 : find_slot (slot_has_fd fd) w.table 0 with
  | some i =>
    have hq : slot_has_fd_serial fd serial (some ⟨fd, serial, dir, c, false, false⟩) = true := by
      simp [slot_has_fd_serial]
    have := find_put_slot (slot_has_fd fd) (slot_has_fd_serial fd serial) _ w.table 0 i h1 hq
      (fun e _ he => slot_has_fd_serial_of_not_fd fd serial e he)
    simp only [Nat.sub_zero] at this
    refine ⟨i, rfl, ?_, ?_⟩
    · simp [this.1, this.2]
    · intro hno
      obtain ⟨e, he, hp⟩ := find_slot_some _ _ _ _ h1
      rw [hno e he] at hp
      cases hp
  | none =>
    rw [h1] at h
    simp only at h
    cases h2 : find_slot (fun e => e.isNone) w.table 0 with
    | some i =>
      have hq : slot_has_fd_serial fd serial (some ⟨fd, serial, dir, c, false, false⟩) = true := by
        simp [slot_has_fd_serial]
      have hno := find_slot_none _ _ _ h1
      have := find_put_slot (fun e => e.isNone) (slot_has_fd_serial fd serial) _ w.table 0 i h2 hq
        (fun e he _ => slot_has_fd_serial_of_not_fd fd serial e (hno e he))
      simp only [Nat.sub_zero] at this
      refine ⟨i, rfl, ?_, ?_⟩
      · simp [this.1, this.2]
      · intro _
        have := put_slot_none_of_free w.table 0 i h2
        simpa using this
    | none =>
      rw [h2] at h
      simp [ResourceExhausted] at h

/-- When no registration is for `fd`, no slot holds `fd`. -/
theorem no_fd_of_fresh (w : World) (fd : Int) (h : ∀ e ∈ w.registrations, e.fd ≠ fd) :
    ∀ e ∈ w.table, slot_has_fd fd e = false := by
  intro e he
  cases e with
  | none => rfl
  | some x =>
    have : x ∈ w.registrations := by
      simp only [registrations, List.mem_filterMap, id]
      exact ⟨some x, he, rfl⟩
    simp [slot_has_fd, h x this]

end World

open World


/-- Claim C8, as the modelled fd table has it: for every state of the fd
table, context, fd, direction and callback (not null) for which
`_gpgme_add_io_cb` succeeds, when the table held no registration of that fd
before, the tag records exactly `(ctx.serial, fd)`, the registration was
requested for exactly that fd and serial, `_gpgme_remove_io_cb` on the tag
requests the removal for exactly that fd and serial, and afterwards the state,
the fd table with it, is what it was before the add. -/
theorem add_then_remove_conserves (cbs : io_cb → Int → World → World × Nat)
    (hook : gpgme_ctx → Int → Int → io_cb_tag_s → Nat × Nat) (w : World) (ctx : gpgme_ctx)
    (fd : Int) (dir : Int) (f fnc_data : Nat) (r : add_io_cb_ret World)
    (h : _gpgme_add_io_cb (World.env cbs hook) w (some ctx) fd dir (some f) fnc_data = some r)
    (hok : r.err = 0) (hfresh : ∀ e ∈ w.registrations, e.fd ≠ fd) :
    r.r_tag = some ⟨ctx.serial, fd, 0⟩ ∧
    r.trace = [Call.set_io_cb fd ctx.serial dir (some ⟨f, fnc_data⟩) 0] ∧
    _gpgme_remove_io_cb (World.env cbs hook) r.world r.r_tag =
      some (w, [Call.set_io_cb fd ctx.serial 0 none 0]) := by
  unfold _gpgme_add_io_cb at h
  simp only [World.env] at h
  by_cases hh : w.heap_ok = false
  · rw [if_pos hh] at h
    cases h
    simp at hok
  · rw [if_neg hh] at h
    by_cases he : (fdtable_set_io_cb w fd ctx.serial dir (some ⟨f, fnc_data⟩)).2 = 0
    · rw [if_neg (by simpa using he)] at h
      cases h
      obtain ⟨i, h1, h2, h3⟩ := set_io_cb_add_remove w fd ctx.serial dir ⟨f, fnc_data⟩ he
      have h4 := h3 (no_fd_of_fresh w fd hfresh)
      rw [h4] at h2
      refine ⟨rfl, ?_, ?_⟩
      · simp [he]
      · simp only [_gpgme_remove_io_cb, World.env]
        rw [h2]
    · rw [if_pos (by simpa using he)] at h
      cases h
      exact absurd hok he

/-- Witness of C8 as amended: fd 6 is registered for the sample context and
removed again. -/
theorem add_then_remove_conserves_witness :
    ∃ r, _gpgme_add_io_cb World.sample_env (World.sample 4) (some World.sample_ctx) 6 1
        (some 20) 0 = some r ∧ r.err = 0 ∧
      (∀ e ∈ (World.sample 4).registrations, e.fd ≠ 6) ∧
      r.r_tag = some ⟨1, 6, 0⟩ ∧
      r.trace = [Call.set_io_cb 6 1 1 (some ⟨20, 0⟩) 0] ∧
      _gpgme_remove_io_cb World.sample_env r.world r.r_tag =
        some (World.sample 4, [Call.set_io_cb 6 1 0 none 0]) :=
  ⟨_, rfl, rfl, by decide,
    add_then_remove_conserves World.sample_cbs World.sample_hook (World.sample 4)
      World.sample_ctx 6 1 20 0 _ rfl rfl (by decide)⟩

/-- Counterexample to C8 on the modelled fd table: the sample context has
callback 4 registered for fd 5. Registering callback 20 for fd 5 succeeds
(the slot of fd 5 is used again), and removing with the returned tag frees
the slot: the table is not what it was before the add. -/
theorem add_then_remove_loses_registration :
    ∃ r w2 tr, _gpgme_add_io_cb World.sample_env (World.sample 4) (some World.sample_ctx) 5 1
        (some 20) 0 = some r ∧ r.err = 0 ∧
      _gpgme_remove_io_cb World.sample_env r.world r.r_tag = some (w2, tr) ∧
      (World.sample 4).table = [some ⟨5, 1, 1, ⟨4, 1⟩, true, false⟩, none] ∧
      w2.table = [none, none] ∧ w2.table ≠ (World.sample 4).table :=
  ⟨_, _, _, rfl, rfl, rfl, rfl, rfl, by decide⟩

/-- Claim C7: registration through the user loop is atomic. For every state of
the modelled fd table, context (not null), fd, direction and callback, if
`_gpgme_add_io_cb_user` returns an error, the fd table holds no registration
that was not there before the call, and either
* the inner `_gpgme_add_io_cb` failed: its result, error included, is the
  result of the call and the state is untouched; or
* the inner registration succeeded, into some slot `i`, the `add` hook of the
  application returned the error that the call returns, and the removal was
  requested for `(fd, ctx.serial)` and succeeded: slot `i` is free again and
  every other slot is as before. -/
theorem add_io_cb_user_atomic (cbs : io_cb → Int → World → World × Nat)
    (hook : gpgme_ctx → Int → Int → io_cb_tag_s → Nat × Nat) (w : World) (ctx : gpgme_ctx)
    (fd : Int) (dir : Int) (fnc : Option Nat) (fnc_data : Nat) (r : add_io_cb_ret World)
    (h : _gpgme_add_io_cb_user (World.env cbs hook) w (some ctx) fd dir fnc fnc_data = some r)
    (hfail : r.err ≠ 0) :
    (∀ e ∈ r.world.registrations, e ∈ w.registrations) ∧
    ((_gpgme_add_io_cb (World.env cbs hook) w (some ctx) fd dir fnc fnc_data = some r ∧
        r.world = w) ∨
     (∃ r0 f i,
        fnc = some f ∧
        _gpgme_add_io_cb (World.env cbs hook) w (some ctx) fd dir fnc fnc_data = some r0 ∧
        r0.err = 0 ∧ r0.r_tag = some ⟨ctx.serial, fd, 0⟩ ∧
        r0.world.table =
          put_slot (some ⟨fd, ctx.serial, dir, ⟨f, fnc_data⟩, false, false⟩) w.table i ∧
        r.err = (hook ctx fd dir ⟨ctx.serial, fd, 0⟩).1 ∧
        r.world = { w with table := put_slot none w.table i } ∧
        r.trace = [Call.set_io_cb fd ctx.serial dir (some ⟨f, fnc_data⟩) 0,
          Call.user_add ctx.serial fd dir r.err, Call.set_io_cb fd ctx.serial 0 none 0])) := by
  unfold _gpgme_add_io_cb_user at h
  simp only at h
  cases hin : _gpgme_add_io_cb (World.env cbs hook) w (some ctx) fd dir fnc fnc_data with
  | none =>
    rw [hin] at h
    cases h
  | some r0 =>
    rw [hin] at h
    try simp only at h
    by_cases hie : r0.err ≠ 0
    · rw [if_pos hie] at h
      have hr : r0 = r := by injection h
      subst hr
      have hw : r0.world = w := by
        unfold _gpgme_add_io_cb at hin
        cases fnc with
        | none =>
          simp only at hin
          cases hin
          rfl
        | some f =>
          simp only [World.env] at hin
          by_cases hh : w.heap_ok = false
          · rw [if_pos hh] at hin
            cases hin
            rfl
          · rw [if_neg hh] at hin
            by_cases he : (fdtable_set_io_cb w fd ctx.serial dir (some ⟨f, fnc_data⟩)).2 = 0
            · rw [if_neg (by simpa using he)] at hin
              cases hin
              exact absurd rfl hie
            · rw [if_pos (by simpa using he)] at hin
              cases hin
              unfold fdtable_set_io_cb at he ⊢
              simp only at he ⊢
              split at he
              · exact absurd rfl he
              · split at he
                · exact absurd rfl he
                · rfl
      refine ⟨?_, Or.inl ⟨rfl, hw⟩⟩
      rw [hw]
      exact fun e he => he
    · rw [if_neg hie] at h
      have hie0 : r0.err = 0 := by
        by_contra hx
        exact hie hx
      cases fnc with
      | none =>
        unfold _gpgme_add_io_cb at hin
        simp only [World.env] at hin
        cases hin
        simp at hie0
      | some f =>
        unfold _gpgme_add_io_cb at hin
        simp only [World.env] at hin
        by_cases hh : w.heap_ok = false
        · rw [if_pos hh] at hin
          cases hin
          simp at hie0
        · rw [if_neg hh] at hin
          by_cases he : (fdtable_set_io_cb w fd ctx.serial dir (some ⟨f, fnc_data⟩)).2 = 0
          · rw [if_neg (by simpa using he)] at hin
            obtain ⟨i, h1, h2, _⟩ := set_io_cb_add_remove w fd ctx.serial dir ⟨f, fnc_data⟩ he
            cases hin
            simp only [World.env] at h
            by_cases hu : (hook ctx fd dir ⟨ctx.serial, fd, 0⟩).1 ≠ 0
            · rw [if_pos hu] at h
              simp only [_gpgme_remove_io_cb] at h
              rw [h2] at h
              cases h
              refine ⟨?_, Or.inr ⟨_, f, i, rfl, rfl, rfl, rfl, ?_, rfl, rfl, ?_⟩⟩
              · intro e hemem
                exact mem_filterMap_put_slot_none _ _ _ hemem
              · rw [h1]
              · simp [he]
            · rw [if_neg hu] at h
              cases h
              exact absurd hfail hu
          · rw [if_pos (by simpa using he)] at hin
            cases hin
            exact absurd hie0 he

/-- Witness of C7: the hook of the application refuses fd 9; the registration
made in the free slot is removed again. -/
theorem add_io_cb_user_atomic_witness :
    ∃ r, _gpgme_add_io_cb_user World.sample_env (World.sample 4) (some World.sample_ctx) 9 1
        (some 20) 0 = some r ∧ r.err = 13 ∧
      (∀ e ∈ r.world.registrations, e ∈ (World.sample 4).registrations) ∧
      r.world = World.sample 4 :=
  ⟨_, rfl, rfl,
    (add_io_cb_user_atomic World.sample_cbs World.sample_hook (World.sample 4)
      World.sample_ctx 9 1 (some 20) 0 _ rfl (by decide)).1, rfl⟩

end Wait
